import Mathlib

set_option maxRecDepth 16000

/-!
Verification development for the volatility screener and plotting engine
(`app_public.py`).  The data model embeds a per-ticker daily series of
volatility observations; the operations embed the 1-year screener window,
the IV-rank / IV-HV-ratio metrics with their eligibility gates, the
screener aggregation loop, and the five-timeframe plot-window resolution.

Dates are modelled as calendar triples (year, month, day) compared through
the injective key `10000*y + 100*m + d` (lexicographic for valid dates).
Missing numeric cells (NaN in the source) are modelled as `Option ℚ`;
pandas `min`/`max` skip NaN, which corresponds to taking extrema over the
defined values only.

The pandas anchored offsets used by the source are embedded exactly:
subtracting `YearEnd(n)` from any timestamp lands on December 31 of
`year - n`, and subtracting `MonthEnd(n)` lands on the last calendar day
of the month `n` months earlier (pandas `roll_convention`/`roll_yearday`
semantics for negative anchored offsets).
-/

structure Date where
  y : Int
  m : Int
  d : Int
deriving DecidableEq, Repr

def Date.key (t : Date) : Int := 10000 * t.y + 100 * t.m + t.d

/-- A calendar-valid month/day range; every real timestamp satisfies it. -/
def Date.Valid (t : Date) : Prop :=
  1 ≤ t.m ∧ t.m ≤ 12 ∧ 1 ≤ t.d ∧ t.d ≤ 31

instance (t : Date) : Decidable t.Valid := by
  unfold Date.Valid; infer_instance

/-- One row of a per-ticker frame: a date plus the two optional
volatility cells (`None` models NaN). -/
structure Obs where
  date : Date
  iv : Option ℚ
  hv : Option ℚ
deriving DecidableEq, Repr

/-- A per-ticker DataFrame: its rows plus whether the two volatility
columns are present at all (row filtering never changes the columns). -/
structure Frame where
  rows : List Obs
  hasIV : Bool
  hasHV : Bool
deriving DecidableEq, Repr

/-- `index.max()` over the rows; `none` models NaT on an empty frame. -/
def maxDate : List Obs → Option Date
  | [] => none
  | o :: rest =>
    match maxDate rest with
    | none => some o.date
    | some M => some (if M.key < o.date.key then o.date else M)

def isLeap (y : Int) : Bool :=
  (y % 4 == 0 && y % 100 != 0) || y % 400 == 0

def daysInMonth (y m : Int) : Int :=
  if m = 2 then (if isLeap y then 29 else 28)
  else if m = 4 ∨ m = 6 ∨ m = 9 ∨ m = 11 then 30
  else 31

/-- `ts - YearEnd(n)` in pandas: December 31 of `year(ts) - n`. -/
def yearEndSub (n : Int) (t : Date) : Date := ⟨t.y - n, 12, 31⟩

/-- `ts - MonthEnd(n)` in pandas: the last day of the month `n` months
before `month(ts)`. -/
def monthEndSub (n : Int) (t : Date) : Date :=
  ⟨(12 * t.y + t.m - 1 - n) / 12,
   (12 * t.y + t.m - 1 - n) % 12 + 1,
   daysInMonth ((12 * t.y + t.m - 1 - n) / 12)
     ((12 * t.y + t.m - 1 - n) % 12 + 1)⟩

/-- The four rolling-duration timeframe specifiers. -/
inductive RSpec where
  | y5
  | y1
  | m6
  | m1
deriving DecidableEq, Repr

/-- `index.max() - to_offset(spec)`: the start date of a rolling window. -/
def startOf : RSpec → Date → Date
  | .y5, M => yearEndSub 5 M
  | .y1, M => yearEndSub 1 M
  | .m6, M => monthEndSub 6 M
  | .m1, M => monthEndSub 1 M

/-- `vol_data[vol_data.index >= vol_data.index.max() - offset]`; on an
empty frame the NaT comparison selects nothing. -/
def resolveRolling (s : RSpec) (rows : List Obs) : List Obs :=
  match maxDate rows with
  | none => []
  | some M => rows.filter (fun o => decide ((startOf s M).key ≤ o.date.key))

/-- `vol_data[vol_data.index.year == datetime.now().year]`: the code's
YTD policy filters by the wall-clock year, passed here as `nowYear`. -/
def resolveYTD (nowYear : Int) (rows : List Obs) : List Obs :=
  rows.filter (fun o => decide (o.date.y = nowYear))

/-- The screener's trailing-year window, `to_offset("1YE")` applied to the
row index maximum. -/
def window1Y (rows : List Obs) : List Obs := resolveRolling .y1 rows

/-- The defined values of the IV column (pandas extrema skip NaN). -/
def ivVals (w : List Obs) : List ℚ := w.filterMap Obs.iv

def listMin : List ℚ → Option ℚ
  | [] => none
  | x :: xs =>
    match listMin xs with
    | none => some x
    | some m => some (if x ≤ m then x else m)

def listMax : List ℚ → Option ℚ
  | [] => none
  | x :: xs =>
    match listMax xs with
    | none => some x
    | some m => some (if x ≤ m then m else x)

/-- The chronologically last row of a window, `iloc[-1]`. -/
def lastObs : List Obs → Option Obs
  | [] => none
  | [o] => some o
  | _ :: o :: rest => lastObs (o :: rest)

/-- `df_1y['IV_30D'].iloc[-1]`; `none` models a NaN current value. -/
def curIV (w : List Obs) : Option ℚ := (lastObs w).bind Obs.iv

/-- `df_1y['HV_30D'].iloc[-1]`. -/
def curHV (w : List Obs) : Option ℚ := (lastObs w).bind Obs.hv

/-- `(current_iv - iv_low) / (iv_high - iv_low) if (iv_high - iv_low) > 0
else nan`; a NaN `current_iv` propagates to a NaN rank. -/
def ivRank (w : List Obs) : Option ℚ :=
  match listMin (ivVals w), listMax (ivVals w) with
  | some lo, some hi =>
    if 0 < hi - lo then (curIV w).map (fun c => (c - lo) / (hi - lo)) else none
  | _, _ => none

/-- `current_iv / current_hv if not (isnan(current_hv) or current_hv == 0)
else nan`; a NaN `current_iv` again propagates. -/
def ivOverHv (w : List Obs) : Option ℚ :=
  match curHV w with
  | some h => if h = 0 then none else (curIV w).map (fun c => c / h)
  | none => none

structure ScreenerRow where
  ticker : String
  cur : ℚ
  rank : ℚ
  ratio : ℚ
deriving DecidableEq, Repr

/-- The per-ticker body of `build_df_from_local_cache`: the eligibility
gate (`df_1y.empty or columns missing or len(df_1y) < 20`), then the two
metrics, then the NaN gate (`pd.isna(iv_rank) or pd.isna(iv_hv_ratio)`). -/
def computeRow (tk : String) (f : Frame) : Option ScreenerRow :=
  if window1Y f.rows = [] ∨ f.hasIV = false ∨ f.hasHV = false ∨
      (window1Y f.rows).length < 20 then none
  else
    match curIV (window1Y f.rows), ivRank (window1Y f.rows),
        ivOverHv (window1Y f.rows) with
    | some c, some rk, some rt => some ⟨tk, c, rk, rt⟩
    | _, _, _ => none

/-- The screener loop: fetch each ticker's frame (`none` models a read
failure or any exception), compute its row, and collect the successes. -/
def buildRows (tickers : List String) (src : String → Option Frame) :
    List ScreenerRow :=
  tickers.filterMap (fun tk => (src tk).bind (computeRow tk))

/-- A plot timeframe specifier: a rolling duration or year-to-date. -/
inductive PSpec where
  | rolling (r : RSpec)
  | ytd
deriving DecidableEq, Repr

def resolveSpec (nowYear : Int) (s : PSpec) (rows : List Obs) : List Obs :=
  match s with
  | .rolling r => resolveRolling r rows
  | .ytd => resolveYTD nowYear rows

/-- The fixed timeframe dictionary of `plot_volatility_analysis`. -/
def timeframes : List (String × PSpec) :=
  [("5 Years", .rolling .y5), ("1 Year", .rolling .y1),
   ("6 Months", .rolling .m6), ("YTD", .ytd), ("1 Month", .rolling .m1)]

/-- The per-timeframe resolution loop of `plot_volatility_analysis`:
each panel is resolved independently from the same frame. -/
def plotBuild (nowYear : Int) (rows : List Obs) : List (String × List Obs) :=
  timeframes.map (fun p => (p.1, resolveSpec nowYear p.2 rows))

example : monthEndSub 1 ⟨2024, 6, 15⟩ = ⟨2024, 5, 31⟩ := by decide
example : monthEndSub 6 ⟨2024, 6, 15⟩ = ⟨2023, 12, 31⟩ := by decide
example : monthEndSub 1 ⟨2024, 3, 31⟩ = ⟨2024, 2, 29⟩ := by decide
example : yearEndSub 1 ⟨2024, 6, 15⟩ = ⟨2023, 12, 31⟩ := by decide

lemma listMin_ne_none (l : List ℚ) (hl : l ≠ []) : listMin l ≠ none := by
  cases l with
  | nil => exact absurd rfl hl
  | cons b u =>
    simp only [listMin]
    cases listMin u <;> simp

lemma listMin_le : ∀ (l : List ℚ) (m x : ℚ), listMin l = some m → x ∈ l → m ≤ x
  | [], _, _, _, hx => by cases hx
  | a :: t, m, x, h, hx => by
    simp only [listMin] at h
    cases ht : listMin t with
    | none =>
      rw [ht] at h
      have ha : a = m := by simpa using h
      cases hx with
      | head => exact ha.ge
      | tail _ hxt =>
        exact absurd ht (listMin_ne_none t (List.ne_nil_of_mem hxt))
    | some mt =>
      rw [ht] at h
      have hm : (if a ≤ mt then a else mt) = m := by simpa using h
      by_cases hc : a ≤ mt
      · rw [if_pos hc] at hm
        cases hx with
        | head => exact hm.ge
        | tail _ hxt =>
          exact hm ▸ le_trans hc (listMin_le t mt x ht hxt)
      · rw [if_neg hc] at hm
        cases hx with
        | head => exact hm ▸ le_of_not_le hc
        | tail _ hxt => exact hm ▸ listMin_le t mt x ht hxt

lemma listMax_ne_none (l : List ℚ) (hl : l ≠ []) : listMax l ≠ none := by
  cases l with
  | nil => exact absurd rfl hl
  | cons b u =>
    simp only [listMax]
    cases listMax u <;> simp

lemma le_listMax : ∀ (l : List ℚ) (m x : ℚ), listMax l = some m → x ∈ l → x ≤ m
  | [], _, _, _, hx => by cases hx
  | a :: t, m, x, h, hx => by
    simp only [listMax] at h
    cases ht : listMax t with
    | none =>
      rw [ht] at h
      have ha : a = m := by simpa using h
      cases hx with
      | head => exact ha.le
      | tail _ hxt =>
        exact absurd ht (listMax_ne_none t (List.ne_nil_of_mem hxt))
    | some mt =>
      rw [ht] at h
      have hm : (if a ≤ mt then mt else a) = m := by simpa using h
      by_cases hc : a ≤ mt
      · rw [if_pos hc] at hm
        cases hx with
        | head => exact hm ▸ hc
        | tail _ hxt => exact hm ▸ le_listMax t mt x ht hxt
      · rw [if_neg hc] at hm
        cases hx with
        | head => exact hm.le
        | tail _ hxt =>
          exact hm ▸ le_trans (le_listMax t mt x ht hxt) (le_of_not_le hc)

lemma lastObs_mem : ∀ (l : List Obs) (o : Obs), lastObs l = some o → o ∈ l
  | [], o, h => by simp [lastObs] at h
  | [a], o, h => by
    rw [lastObs] at h
    simp_all
  | a :: b :: t, o, h => by
    have h2 : lastObs (b :: t) = some o := h
    exact List.mem_cons_of_mem a (lastObs_mem (b :: t) o h2)

lemma curIV_mem_ivVals (w : List Obs) (c : ℚ) (h : curIV w = some c) :
    c ∈ ivVals w := by
  unfold curIV at h
  cases hl : lastObs w with
  | none => rw [hl] at h; cases h
  | some o =>
    rw [hl] at h
    exact List.mem_filterMap.2 ⟨o, lastObs_mem w o hl, h⟩

lemma maxDate_ne_none (rows : List Obs) (hl : rows ≠ []) : maxDate rows ≠ none := by
  cases rows with
  | nil => exact absurd rfl hl
  | cons b u =>
    simp only [maxDate]
    cases maxDate u <;> simp

lemma maxDate_le (rows : List Obs) (M : Date) (hM : maxDate rows = some M) :
    ∀ o ∈ rows, o.date.key ≤ M.key := by
  induction rows generalizing M with
  | nil => cases hM
  | cons a t ih =>
    intro o ho
    simp only [maxDate] at hM
    cases ht : maxDate t with
    | none =>
      rw [ht] at hM
      have ha : a.date = M := by simpa using hM
      cases ho with
      | head => exact ha ▸ le_refl _
      | tail _ hot => exact absurd ht (maxDate_ne_none t (List.ne_nil_of_mem hot))
    | some M2 =>
      rw [ht] at hM
      have hm : (if M2.key < a.date.key then a.date else M2) = M := by
        simpa using hM
      by_cases hc : M2.key < a.date.key
      · rw [if_pos hc] at hm
        cases ho with
        | head => exact hm ▸ le_refl _
        | tail _ hot => exact hm ▸ le_of_lt (lt_of_le_of_lt (ih M2 ht o hot) hc)
      · rw [if_neg hc] at hm
        cases ho with
        | head => exact hm ▸ le_of_not_lt hc
        | tail _ hot => exact hm ▸ ih M2 ht o hot

lemma maxDate_attained (rows : List Obs) (M : Date)
    (hM : maxDate rows = some M) : ∃ o ∈ rows, o.date = M := by
  induction rows generalizing M with
  | nil => cases hM
  | cons a t ih =>
    simp only [maxDate] at hM
    cases ht : maxDate t with
    | none =>
      rw [ht] at hM
      exact ⟨a, List.mem_cons_self a t, by simpa using hM⟩
    | some M2 =>
      rw [ht] at hM
      have hm : (if M2.key < a.date.key then a.date else M2) = M := by
        simpa using hM
      by_cases hc : M2.key < a.date.key
      · rw [if_pos hc] at hm
        exact ⟨a, List.mem_cons_self a t, hm⟩
      · rw [if_neg hc] at hm
        obtain ⟨o, ho, hod⟩ := ih M2 ht
        exact ⟨o, List.mem_cons_of_mem a ho, hod.trans hm⟩

lemma daysInMonth_bounds (y m : Int) :
    28 ≤ daysInMonth y m ∧ daysInMonth y m ≤ 31 := by
  unfold daysInMonth
  split
  · split <;> omega
  · split <;> omega

lemma startOf_key_lt (s : RSpec) (M : Date) (hv : M.Valid) :
    (startOf s M).key < M.key := by
  obtain ⟨h1, h2, h3, h4⟩ := hv
  cases s with
  | y5 => simp only [startOf, yearEndSub, Date.key]; omega
  | y1 => simp only [startOf, yearEndSub, Date.key]; omega
  | m6 =>
    have hb := daysInMonth_bounds (((12 * M.y + M.m - 1 - 6) / 12))
      (((12 * M.y + M.m - 1 - 6) % 12 + 1))
    simp only [startOf, monthEndSub, Date.key]
    omega
  | m1 =>
    have hb := daysInMonth_bounds (((12 * M.y + M.m - 1 - 1) / 12))
      (((12 * M.y + M.m - 1 - 1) % 12 + 1))
    simp only [startOf, monthEndSub, Date.key]
    omega

lemma filter_key_suffix (rows : List Obs) (c : Int)
    (hs : rows.Pairwise (fun a b => a.date.key < b.date.key)) :
    ∃ pre : List Obs,
      rows = pre ++ rows.filter (fun o => decide (c ≤ o.date.key)) := by
  induction rows with
  | nil => exact ⟨[], rfl⟩
  | cons a t ih =>
    rw [List.pairwise_cons] at hs
    by_cases hc : c ≤ a.date.key
    · refine ⟨[], ?_⟩
      have hall : t.filter (fun o => decide (c ≤ o.date.key)) = t :=
        List.filter_eq_self.2 fun x hx => by
          simpa using le_of_lt (lt_of_le_of_lt hc (hs.1 x hx))
      simp [List.filter_cons, hc, hall]
    · obtain ⟨pre, hpre⟩ := ih hs.2
      refine ⟨a :: pre, ?_⟩
      simp [List.filter_cons, hc]
      exact hpre

/-- The YTD policy asserted by the spec (policy (b)): observations whose
calendar year equals the year of the series' latest date.  Stated from the
spec's words, for comparison with the code's wall-clock policy. -/
def claimYtdByMaxDate (rows : List Obs) : List Obs :=
  match maxDate rows with
  | none => []
  | some M => rows.filter (fun o => decide (o.date.y = M.y))

/-- Day number of a Gregorian civil date (days since 1970-01-01), used
only to express the spec's fixed-length day-count durations. -/
def dateToDays (t : Date) : Int :=
  let y : Int := if t.m ≤ 2 then t.y - 1 else t.y
  let era : Int := y / 400
  let yoe : Int := y - era * 400
  let mp : Int := (t.m + 9) % 12
  let doy : Int := (153 * mp + 2) / 5 + t.d - 1
  let doe : Int := yoe * 365 + yoe / 4 - yoe / 100 + doy
  era * 146097 + doe - 719468

example : dateToDays ⟨1970, 1, 1⟩ = 0 := by decide
example : dateToDays ⟨2024, 6, 15⟩ - dateToDays ⟨2024, 5, 20⟩ = 26 := by decide

/-- The 1-month window asserted by the spec: every observation within a
fixed 30-day (month = 30-day equivalent) look-back from the latest date,
inclusive on both ends.  Stated from the spec's words. -/
def claimWindow30d (rows : List Obs) : List Obs :=
  match maxDate rows with
  | none => []
  | some M =>
    rows.filter (fun o =>
      decide (dateToDays M - 30 ≤ dateToDays o.date ∧ o.date.key ≤ M.key))

def obsMay : Obs := ⟨⟨2024, 5, 20⟩, some 25, some 5⟩

def obsJun : Obs := ⟨⟨2024, 6, 15⟩, some 30, some 5⟩

def twoRows : List Obs := [obsMay, obsJun]

/-- C1 counterexample: for the one-point series dated 2023-07-03 resolved
with wall-clock year 2025, the code's YTD window (which filters by
`datetime.now().year`) is empty, while the claimed policy
`year(date) == year(max_date)` would return the observation. -/
theorem c1_counterexample :
    resolveYTD 2025 [⟨⟨2023, 7, 3⟩, some 25, some 5⟩] ≠
      claimYtdByMaxDate [⟨⟨2023, 7, 3⟩, some 25, some 5⟩] := by
  decide

/-- C1 amended: resolving the YTD timeframe returns exactly the
observations whose calendar year equals the current wall-clock year
(policy (a)), for every series and wall-clock year. -/
theorem c1_ytd_wallclock (nowYear : Int) (rows : List Obs) (o : Obs) :
    o ∈ resolveYTD nowYear rows ↔ o ∈ rows ∧ o.date.y = nowYear := by
  simp [resolveYTD, List.mem_filter]

/-- C2 counterexample: with latest date 2024-06-15, the code's "1M" window
starts at the pandas month-end anchor 2024-05-31, so the observation dated
2024-05-20 (26 days before the latest date, hence inside the claimed
30-day window) is excluded: the two windows differ. -/
theorem c2_counterexample :
    resolveRolling RSpec.m1 twoRows ≠ claimWindow30d twoRows := by
  decide

/-- C2 amended: for every series and rolling spec, the resolved window
contains exactly the observations with date in the closed interval from
`max_date - offset` to `max_date`, where the offset is the pandas anchored
calendar arithmetic (nY lands on Dec 31 of `year(max_date) - n`, nM on the
last day of the month n months before `month(max_date)`), not a fixed
365.25/30-day duration; both ends are inclusive. -/
theorem c2_rolling_window (s : RSpec) (rows : List Obs) (M : Date)
    (hM : maxDate rows = some M) (o : Obs) :
    o ∈ resolveRolling s rows ↔
      o ∈ rows ∧ (startOf s M).key ≤ o.date.key ∧ o.date.key ≤ M.key := by
  unfold resolveRolling
  rw [hM]
  simp only [List.mem_filter, decide_eq_true_eq]
  constructor
  · rintro ⟨h1, h2⟩
    exact ⟨h1, h2, maxDate_le rows M hM o h1⟩
  · rintro ⟨h1, h2, h3⟩
    exact ⟨h1, h2⟩

/-- C2 amended, witness: the observation at the latest date 2024-06-15 of
the concrete two-point series is inside its own "1M" window. -/
theorem c2_rolling_window_w :
    obsJun ∈ resolveRolling RSpec.m1 twoRows ↔
      obsJun ∈ twoRows ∧ (startOf RSpec.m1 ⟨2024, 6, 15⟩).key ≤ obsJun.date.key ∧
        obsJun.date.key ≤ Date.key ⟨2024, 6, 15⟩ :=
  c2_rolling_window RSpec.m1 twoRows ⟨2024, 6, 15⟩ (by decide) obsJun

/-- C8: the plot builder returns exactly five named windows in the fixed
display order, each produced by the window resolver with the corresponding
spec from the same frame, independently of the other panels; the resolver
is total, so no panel resolution can abort the others. -/
theorem c8_plot_panels (nowYear : Int) (rows : List Obs) :
    (plotBuild nowYear rows).map Prod.fst =
        ["5 Years", "1 Year", "6 Months", "YTD", "1 Month"] ∧
    (plotBuild nowYear rows).length = 5 ∧
    plotBuild nowYear rows =
      [("5 Years", resolveRolling RSpec.y5 rows),
       ("1 Year", resolveRolling RSpec.y1 rows),
       ("6 Months", resolveRolling RSpec.m6 rows),
       ("YTD", resolveYTD nowYear rows),
       ("1 Month", resolveRolling RSpec.m1 rows)] :=
  ⟨rfl, rfl, rfl⟩

/-- C9: resolving any timeframe spec (rolling or YTD) against the empty
series returns the empty sub-series; resolution is a total function, so
emptiness and an undefined maximum date are represented, never raised. -/
theorem c9_empty_resolution (nowYear : Int) (s : PSpec) :
    resolveSpec nowYear s [] = [] := by
  cases s with
  | rolling r => rfl
  | ytd => rfl

def mkObs (k : Int) (v : Option ℚ) : Obs := ⟨⟨2024, 3, k⟩, v, some 5⟩

/-- Twenty observations in March 2024 whose IV column varies between 10
and 40 but whose chronologically last IV cell is NaN. -/
def rowsRankNone : List Obs :=
  [mkObs 1 (some 10), mkObs 2 (some 40)]
    ++ (List.range 17).map (fun i => mkObs (3 + (i : Int)) (some 25))
    ++ [mkObs 20 none]

def frameRankNone : Frame := ⟨rowsRankNone, true, true⟩

/-- Twenty observations shaped like the spec's worked example: IV spans
[10, 40] with last value 34, HV last value 5. -/
def rowsGood : List Obs :=
  [mkObs 1 (some 10), mkObs 2 (some 40)]
    ++ (List.range 17).map (fun i => mkObs (3 + (i : Int)) (some 25))
    ++ [mkObs 20 (some 34)]

def frameGood : Frame := ⟨rowsGood, true, true⟩

def tkXYZ : String := "XYZ"

def tkT : String := "T"

def srcNone : String → Option Frame := fun _ => none

lemma ivRank_eq_of_minmax (w : List Obs) (lo hi : ℚ)
    (hlo : listMin (ivVals w) = some lo) (hhi : listMax (ivVals w) = some hi) :
    ivRank w =
      if 0 < hi - lo then (curIV w).map (fun c => (c - lo) / (hi - lo))
      else none := by
  unfold ivRank
  rw [hlo, hhi]

lemma ivRank_eq_none_of_min_none (w : List Obs)
    (hlo : listMin (ivVals w) = none) : ivRank w = none := by
  unfold ivRank
  rw [hlo]

lemma ivRank_eq_none_of_max_none (w : List Obs)
    (hhi : listMax (ivVals w) = none) : ivRank w = none := by
  unfold ivRank
  rw [hhi]
  cases listMin (ivVals w) <;> rfl

/-- Helper: the 1-year window of the degenerate example frame is the
whole series, and its IV extrema are 10 and 40 while its current IV is
undefined. -/
lemma rankNone_facts :
    window1Y frameRankNone.rows = rowsRankNone ∧
    listMin (ivVals rowsRankNone) = some 10 ∧
    listMax (ivVals rowsRankNone) = some 40 ∧
    curIV rowsRankNone = none := by
  refine ⟨by decide, by decide, by decide, by decide⟩

/-- C4 counterexample: a 20-point window that passes the eligibility gate
but whose last IV cell is NaN has an undefined iv_rank even though the
window's IV maximum (40) differs from its minimum (10), refuting
"undefined exactly when the IV maximum equals the IV minimum". -/
theorem c4_counterexample :
    (window1Y frameRankNone.rows ≠ [] ∧ frameRankNone.hasIV = true ∧
      frameRankNone.hasHV = true ∧
      20 ≤ (window1Y frameRankNone.rows).length) ∧
    ivRank (window1Y frameRankNone.rows) = none ∧
    listMin (ivVals (window1Y frameRankNone.rows)) ≠
      listMax (ivVals (window1Y frameRankNone.rows)) := by
  obtain ⟨hw, h1, h2, h3⟩ := rankNone_facts
  refine ⟨by decide, ?_, ?_⟩
  · rw [hw, ivRank_eq_of_minmax rowsRankNone 10 40 h1 h2,
      if_pos (by norm_num : (0:ℚ) < 40 - 10), h3]
    rfl
  · rw [hw, h1, h2]
    simp only [ne_eq, Option.some.injEq]
    norm_num

/-- C4 amended: whenever iv_rank is defined it equals
`(current_iv - iv_low) / (iv_high - iv_low)` and lies in [0,1] (the
current IV is one of the values over which the extrema are taken); it is
undefined exactly when the defined-IV extrema are degenerate
(`iv_high ≤ iv_low`, including an IV column with no defined value) or the
last observation's IV is itself undefined. -/
theorem c4_rank (w : List Obs) :
    (∀ r : ℚ, ivRank w = some r →
      ∃ lo hi c, listMin (ivVals w) = some lo ∧
        listMax (ivVals w) = some hi ∧ curIV w = some c ∧
        r = (c - lo) / (hi - lo) ∧ 0 ≤ r ∧ r ≤ 1) ∧
    (ivRank w = none ↔
      (∀ lo hi, listMin (ivVals w) = some lo →
        listMax (ivVals w) = some hi → hi ≤ lo) ∨ curIV w = none) := by
  constructor
  · intro r hr
    cases hlo : listMin (ivVals w) with
    | none => rw [ivRank_eq_none_of_min_none w hlo] at hr; cases hr
    | some lo =>
      cases hhi : listMax (ivVals w) with
      | none => rw [ivRank_eq_none_of_max_none w hhi] at hr; cases hr
      | some hi =>
        rw [ivRank_eq_of_minmax w lo hi hlo hhi] at hr
        by_cases hpos : 0 < hi - lo
        · rw [if_pos hpos] at hr
          cases hc : curIV w with
          | none => rw [hc] at hr; cases hr
          | some c =>
            rw [hc] at hr
            have hrc : (c - lo) / (hi - lo) = r := by simpa using hr
            have hmem : c ∈ ivVals w := curIV_mem_ivVals w c hc
            have hlo2 : lo ≤ c := listMin_le (ivVals w) lo c hlo hmem
            have hhi2 : c ≤ hi := le_listMax (ivVals w) hi c hhi hmem
            refine ⟨lo, hi, c, rfl, rfl, rfl, hrc.symm, ?_, ?_⟩
            · rw [← hrc]
              exact div_nonneg (by linarith) (le_of_lt hpos)
            · rw [← hrc, div_le_one hpos]
              linarith
        · rw [if_neg hpos] at hr; cases hr
  · cases hlo : listMin (ivVals w) with
    | none =>
      rw [ivRank_eq_none_of_min_none w hlo]
      constructor
      · intro _
        left
        intro lo2 hi2 h1 h2
        exact absurd h1 (by simp)
      · intro _
        rfl
    | some lo =>
      cases hhi : listMax (ivVals w) with
      | none =>
        rw [ivRank_eq_none_of_max_none w hhi]
        constructor
        · intro _
          left
          intro lo2 hi2 h1 h2
          exact absurd h2 (by simp)
        · intro _
          rfl
      | some hi =>
        rw [ivRank_eq_of_minmax w lo hi hlo hhi]
        by_cases hpos : 0 < hi - lo
        · rw [if_pos hpos]
          constructor
          · intro h
            cases hc : curIV w with
            | none => right; rfl
            | some c => rw [hc] at h; simp at h
          · intro h
            cases h with
            | inl h2 =>
              have h3 := h2 lo hi rfl rfl
              linarith
            | inr h2 => rw [h2]; rfl
        · rw [if_neg hpos]
          constructor
          · intro _
            left
            intro lo2 hi2 h1 h2
            have e1 : lo = lo2 := Option.some.inj h1
            have e2 : hi = hi2 := Option.some.inj h2
            rw [← e1, ← e2]
            linarith [not_lt.mp hpos]
          · intro _
            rfl

/-- C4 amended, witness: on the worked example the rank is
(34-10)/(40-10) = 4/5, with the extrema, current value and bounds as the
theorem states. -/
theorem c4_rank_w :
    ∃ lo hi c, listMin (ivVals rowsGood) = some lo ∧
      listMax (ivVals rowsGood) = some hi ∧ curIV rowsGood = some c ∧
      (4/5 : ℚ) = (c - lo) / (hi - lo) ∧ 0 ≤ (4/5 : ℚ) ∧ (4/5 : ℚ) ≤ 1 :=
  (c4_rank rowsGood).1 (4/5) (by
    have h1 : listMin (ivVals rowsGood) = some 10 := by decide
    have h2 : listMax (ivVals rowsGood) = some 40 := by decide
    have h3 : curIV rowsGood = some 34 := by decide
    rw [ivRank_eq_of_minmax rowsGood 10 40 h1 h2, h3,
      if_pos (by norm_num : (0:ℚ) < 40 - 10)]
    norm_num)

lemma ivOverHv_eq_of_some (w : List Obs) (h : ℚ) (hh : curHV w = some h) :
    ivOverHv w = if h = 0 then none else (curIV w).map (fun c => c / h) := by
  unfold ivOverHv
  rw [hh]

lemma ivOverHv_eq_none_of_none (w : List Obs) (hh : curHV w = none) :
    ivOverHv w = none := by
  unfold ivOverHv
  rw [hh]

/-- C5: a ticker yields a screener row only if its trailing-year window is
non-empty, both volatility columns are present, and the window holds at
least 20 observations; any series whose window has fewer than 20 points is
ineligible regardless of its values. -/
theorem c5_gate (tk : String) (f : Frame) :
    (computeRow tk f ≠ none →
      window1Y f.rows ≠ [] ∧ f.hasIV = true ∧ f.hasHV = true ∧
        20 ≤ (window1Y f.rows).length) ∧
    ((window1Y f.rows).length < 20 → computeRow tk f = none) := by
  constructor
  · intro h
    by_cases hg : window1Y f.rows = [] ∨ f.hasIV = false ∨ f.hasHV = false ∨
        (window1Y f.rows).length < 20
    · exfalso
      apply h
      unfold computeRow
      rw [if_pos hg]
    · push_neg at hg
      obtain ⟨h1, h2, h3, h4⟩ := hg
      refine ⟨h1, ?_, ?_, ?_⟩
      · simpa using h2
      · simpa using h3
      · omega
  · intro hlen
    unfold computeRow
    rw [if_pos (Or.inr (Or.inr (Or.inr hlen)))]

/-- Helper: the worked-example frame passes every gate and yields the row
(34, 4/5, 34/5). -/
lemma computeRow_good :
    computeRow tkXYZ frameGood = some ⟨tkXYZ, 34, 4/5, 34/5⟩ := by
  have hw : window1Y frameGood.rows = rowsGood := by decide
  have h1 : listMin (ivVals rowsGood) = some 10 := by decide
  have h2 : listMax (ivVals rowsGood) = some 40 := by decide
  have h3 : curIV rowsGood = some 34 := by decide
  have h4 : curHV rowsGood = some 5 := by decide
  have hrank : ivRank rowsGood = some (4/5) := by
    rw [ivRank_eq_of_minmax rowsGood 10 40 h1 h2, h3,
      if_pos (by norm_num : (0:ℚ) < 40 - 10)]
    norm_num
  have hratio : ivOverHv rowsGood = some (34/5) := by
    rw [ivOverHv_eq_of_some rowsGood 5 h4,
      if_neg (by norm_num : ¬(5:ℚ) = 0), h3]
    norm_num
  have hgate : ¬(window1Y frameGood.rows = [] ∨ frameGood.hasIV = false ∨
      frameGood.hasHV = false ∨ (window1Y frameGood.rows).length < 20) := by
    decide
  unfold computeRow
  rw [if_neg hgate, hw, h3, hrank, hratio]

/-- C5 witness: the worked-example frame satisfies every gate conclusion,
and a frame with an empty window is ineligible. -/
theorem c5_gate_w :
    (window1Y frameGood.rows ≠ [] ∧ frameGood.hasIV = true ∧
      frameGood.hasHV = true ∧ 20 ≤ (window1Y frameGood.rows).length) ∧
    computeRow tkT (Frame.mk [] true true) = none :=
  ⟨(c5_gate tkXYZ frameGood).1 (by rw [computeRow_good]; simp),
   (c5_gate tkT (Frame.mk [] true true)).2 (by decide)⟩

/-- C6: iv_hv_ratio equals current_iv / current_hv (propagating an
undefined current_iv) when current_hv is defined and non-zero, and is
undefined when current_hv is NaN or zero; a ticker whose iv_rank or
iv_hv_ratio is undefined is excluded from the screener entirely. -/
theorem c6_ratio (tk : String) (f : Frame) :
    (∀ h : ℚ, curHV (window1Y f.rows) = some h → h ≠ 0 →
      ivOverHv (window1Y f.rows) =
        (curIV (window1Y f.rows)).map (fun c => c / h)) ∧
    (curHV (window1Y f.rows) = none ∨ curHV (window1Y f.rows) = some 0 →
      ivOverHv (window1Y f.rows) = none) ∧
    (ivRank (window1Y f.rows) = none ∨ ivOverHv (window1Y f.rows) = none →
      computeRow tk f = none) := by
  refine ⟨?_, ?_, ?_⟩
  · intro h hh hnz
    rw [ivOverHv_eq_of_some (window1Y f.rows) h hh, if_neg hnz]
  · intro hd
    cases hd with
    | inl h2 => exact ivOverHv_eq_none_of_none (window1Y f.rows) h2
    | inr h2 => rw [ivOverHv_eq_of_some (window1Y f.rows) 0 h2, if_pos rfl]
  · intro hd
    unfold computeRow
    by_cases hg : window1Y f.rows = [] ∨ f.hasIV = false ∨ f.hasHV = false ∨
        (window1Y f.rows).length < 20
    · rw [if_pos hg]
    · rw [if_neg hg]
      cases hd with
      | inl h2 =>
        rw [h2]
        cases curIV (window1Y f.rows) <;> rfl
      | inr h2 =>
        rw [h2]
        cases curIV (window1Y f.rows) with
        | none => rfl
        | some c => cases ivRank (window1Y f.rows) <;> rfl

/-- C6 witness: on the worked example the ratio is current_iv / 5, and a
frame with an undefined iv_rank (empty window) produces no row. -/
theorem c6_ratio_w :
    ivOverHv (window1Y frameGood.rows) =
      (curIV (window1Y frameGood.rows)).map (fun c => c / 5) ∧
    computeRow tkT (Frame.mk [] true true) = none :=
  ⟨(c6_ratio tkXYZ frameGood).1 5 (by decide) (by norm_num),
   (c6_ratio tkT (Frame.mk [] true true)).2.2 (Or.inl (by decide))⟩

lemma buildRows_nil_of_all_none (tickers : List String)
    (src : String → Option Frame)
    (h : ∀ t ∈ tickers, (src t).bind (computeRow t) = none) :
    buildRows tickers src = [] := by
  induction tickers with
  | nil => rfl
  | cons a t ih =>
    have ha := h a (List.mem_cons_self a t)
    have ht := fun x hx => h x (List.mem_cons_of_mem a hx)
    unfold buildRows at ih ⊢
    rw [List.filterMap_cons, ha]
    exact ih ht

/-- C7: a ticker whose fetch or metric computation fails contributes
nothing and the scan over the remaining tickers is unchanged; if every
ticker fails or is ineligible the screener returns the empty sequence
rather than an error. -/
theorem c7_isolation (pre post tickers : List String) (tk : String)
    (src : String → Option Frame) :
    ((src tk).bind (computeRow tk) = none →
      buildRows (pre ++ tk :: post) src = buildRows (pre ++ post) src) ∧
    ((∀ t ∈ tickers, (src t).bind (computeRow t) = none) →
      buildRows tickers src = []) := by
  constructor
  · intro h
    unfold buildRows
    rw [List.filterMap_append, List.filterMap_append]
    congr 1
    rw [List.filterMap_cons, h]
  · intro h
    exact buildRows_nil_of_all_none tickers src h

/-- C7 witness: with a source that fails on every ticker, dropping the
failing ticker "C" leaves the scan unchanged and the scan result is
empty. -/
theorem c7_isolation_w :
    buildRows (["A"] ++ "C" :: ["B"]) srcNone = buildRows (["A"] ++ ["B"]) srcNone ∧
    buildRows ["A", "B"] srcNone = [] :=
  ⟨(c7_isolation ["A"] ["B"] ["A", "B"] "C" srcNone).1 rfl,
   (c7_isolation ["A"] ["B"] ["A", "B"] "C" srcNone).2 (fun _ _ => rfl)⟩

/-- C10: for a non-empty, strictly chronologically ordered series with a
calendar-valid latest date, every rolling window is a non-empty contiguous
suffix of the series (hence preserves chronological order) and contains
the observation at the latest date. -/
theorem c10_window (s : RSpec) (rows : List Obs) (M : Date)
    (hM : maxDate rows = some M) (hv : M.Valid)
    (hs : rows.Pairwise (fun a b => a.date.key < b.date.key)) :
    resolveRolling s rows ≠ [] ∧
    (∃ pre, rows = pre ++ resolveRolling s rows) ∧
    (∃ o, o ∈ resolveRolling s rows ∧ o.date = M) := by
  have hstart := startOf_key_lt s M hv
  obtain ⟨o0, ho0, ho0d⟩ := maxDate_attained rows M hM
  have hmem : o0 ∈ resolveRolling s rows := by
    unfold resolveRolling
    rw [hM]
    refine List.mem_filter.2 ⟨ho0, ?_⟩
    simp only [decide_eq_true_eq]
    rw [ho0d]
    exact le_of_lt hstart
  refine ⟨?_, ?_, ⟨o0, hmem, ho0d⟩⟩
  · intro hemp
    rw [hemp] at hmem
    cases hmem
  · unfold resolveRolling
    rw [hM]
    exact filter_key_suffix rows (startOf s M).key hs

/-- C10 witness: the concrete two-point series resolved with "1M" has a
non-empty suffix window containing its latest observation. -/
theorem c10_window_w :
    resolveRolling RSpec.m1 twoRows ≠ [] ∧
    (∃ pre, twoRows = pre ++ resolveRolling RSpec.m1 twoRows) ∧
    (∃ o, o ∈ resolveRolling RSpec.m1 twoRows ∧ o.date = ⟨2024, 6, 15⟩) :=
  c10_window RSpec.m1 twoRows ⟨2024, 6, 15⟩ (by decide) (by decide) (by decide)
